import Mathlib

/-!
Shallow embedding of `concert_service_turtlesim/scripts/turtle_herder2.py`.

The script manages a fleet of simulated turtles: it uniquifies requested
names against its registry (`TurtleHerder.turtles`), spawns simulated
turtles through a ROS service, launches one external client process per
turtle (with a port counter), and sends gateway flip rules; `shutdown`
stops the tracked processes and unlinks the tracked temporary files.

RPC calls can succeed or raise (`rospy.ServiceException` for communication
failure, `rospy.ROSInterruptException` for an interrupt); the environment
is modelled by oracles `Nat → RpcOutcome` indexed by the call number, and
the methods are translated as pure functions of the state and the oracle,
returning the mutated state together with the requests actually issued.
-/

namespace TurtleHerder

/-- Outcome of one synchronous ROS service call: it returns normally,
raises `rospy.ServiceException` (communication failure) or raises
`rospy.ROSInterruptException` (interrupt/shutdown signal). -/
inductive RpcOutcome where
  | success
  | serviceError
  | interrupt
deriving DecidableEq

/-- Mutable state of a `TurtleHerder` instance: the `turtles` registry
(list of turtle name strings), the tracked process handles
(`_processes`, modelled as opaque numeric ids) and the tracked temporary
files (`_temporary_files`, modelled by their names). -/
structure HerderState where
  turtles : List String
  processes : List Nat
  temporary_files : List String
deriving DecidableEq

/-! ### `_establish_unique_names`

The Python loop tries `name`, then `name + '_' + str(count)` for
`count = 0, 1, 2, ...` until the candidate is not in `self.turtles`.
`candidateName name i` is the i-th candidate tried. The while loop is
translated with explicit fuel `turtles.length + 1`; the theorem
`uniquifyLoop_finds_least` proves that this fuel always suffices, i.e.
the translation computes exactly what the unbounded loop computes: the
first candidate not occurring in `turtles`. -/

/-- The i-th candidate name tried by the while loop of
`_establish_unique_names`: the bare name first, then
`name + '_' + str(count)` with `count = i - 1`. -/
def candidateName (name : String) : Nat → String
  | 0 => name
  | i + 1 => name ++ "_" ++ Nat.repr i

/-- The while loop of `_establish_unique_names`, with fuel: starting at
candidate index `i`, return the first candidate not in `turtles`. -/
def uniquifyLoop (turtles : List String) (name : String) : Nat → Nat → String
  | 0, i => candidateName name i
  | fuel + 1, i =>
    if candidateName name i ∈ turtles then uniquifyLoop turtles name fuel (i + 1)
    else candidateName name i

/-- `TurtleHerder._establish_unique_names(turtles)`: each requested name
is run through the while loop against `self.turtles`.  Note the source
checks candidates only against `self.turtles`; the local list
`unique_turtle_names` being built is not consulted, so the translation
is a plain map. -/
def establish_unique_names (selfTurtles : List String) (turtles : List String) : List String :=
  turtles.map (fun turtle_name => uniquifyLoop selfTurtles turtle_name (selfTurtles.length + 1) 0)

/-! ### `_spawn_simulated_turtles` -/

/-- `TurtleHerder._spawn_simulated_turtles(turtles)`: for each turtle,
issue a Spawn service call (the random pose does not affect the tracked
state).  On success the name is appended to `self.turtles`; on
`ServiceException` the loop logs and `continue`s; on
`ROSInterruptException` the loop logs and `continue`s as well.  `k` is
the index of the next service call in the oracle, `acc` is the current
`self.turtles`. -/
def spawn_simulated_turtles (oracle : Nat → RpcOutcome) : Nat → List String → List String → List String
  | _, [], acc => acc
  | k, turtle :: rest, acc =>
    match oracle k with
    | .success => spawn_simulated_turtles oracle (k + 1) rest (acc ++ [turtle])
    | .serviceError => spawn_simulated_turtles oracle (k + 1) rest acc
    | .interrupt => spawn_simulated_turtles oracle (k + 1) rest acc

/-- Specification-side description of a provisioning batch: the sublist
of names whose spawn RPC (at their position in the batch) succeeds. -/
def successNames (oracle : Nat → RpcOutcome) : Nat → List String → List String
  | _, [] => []
  | k, turtle :: rest =>
    if oracle k = RpcOutcome.success then turtle :: successNames oracle (k + 1) rest
    else successNames oracle (k + 1) rest

/-! ### `prepare_launch_configurations` -/

/-- One `<launch ...>` entry of the rocon launch text: the turtle name,
the value of the local `port` counter when the entry was generated, and
the literal `port="114%s"` attribute written into the text. -/
structure LaunchConfiguration where
  name : String
  portCounter : Nat
  portAttr : String
deriving DecidableEq

/-- The loop of `prepare_launch_configurations`: one entry per turtle,
with the `port` counter incremented after each entry. -/
def prepareLoop : List String → Nat → List LaunchConfiguration
  | [], _ => []
  | name :: rest, port => ⟨name, port, "114" ++ Nat.repr port⟩ :: prepareLoop rest (port + 1)

/-- `prepare_launch_configurations(turtles)`: the local counter `port`
is initialised to `11` on every call, and each turtle gets
`port="114%s" % str(port)` with the counter incremented per turtle. -/
def prepare_launch_configurations (turtles : List String) : List LaunchConfiguration :=
  prepareLoop turtles 11

/-! ### `_launch_turtle_clients` -/

/-- The loop of `_launch_turtle_clients`: for each launch configuration,
`spawn_roslaunch_window` returns a process and a meta roslauncher file
(supplied here by the `launcher` oracle, indexed by launch number);
both are appended to the tracked lists. -/
def launchLoop (launcher : Nat → Nat × String) : Nat → List LaunchConfiguration → HerderState → HerderState
  | _, [], s => s
  | k, _ :: rest, s =>
    launchLoop launcher (k + 1) rest
      { s with
        processes := s.processes ++ [(launcher k).1],
        temporary_files := s.temporary_files ++ [(launcher k).2] }

/-- `TurtleHerder._launch_turtle_clients(turtles)`. -/
def launch_turtle_clients (launcher : Nat → Nat × String) (turtles : List String) (s : HerderState) : HerderState :=
  launchLoop launcher 0 (prepare_launch_configurations turtles) s

/-! ### `_send_flip_rules` -/

/-- `gateway_msgs.Rule`: node, connection type and name. -/
structure Rule where
  node : String
  type : String
  name : String
deriving DecidableEq

/-- `gateway_msgs.ConnectionType.SUBSCRIBER`. -/
def SUBSCRIBER : String := "subscriber"

/-- `gateway_msgs.ConnectionType.PUBLISHER`. -/
def PUBLISHER : String := "publisher"

/-- `gateway_msgs.RemoteRule`: a gateway name and one rule. -/
structure RemoteRule where
  gateway : String
  rule : Rule
deriving DecidableEq

/-- `gateway_srvs.RemoteRequest`: the cancel flag and the remote rules. -/
structure RemoteRequest where
  cancel : Bool
  remotes : List RemoteRule
deriving DecidableEq

/-- The two rules built for one turtle in `_send_flip_rules`: a
subscriber rule on the turtle's `cmd_vel` topic followed by a publisher
rule on its `pose` topic. -/
def turtleRules (turtle : String) : List Rule :=
  [⟨"", SUBSCRIBER, "/services/turtlesim/" ++ turtle ++ "/cmd_vel"⟩,
   ⟨"", PUBLISHER, "/services/turtlesim/" ++ turtle ++ "/pose"⟩]

/-- The request sent for one turtle in `_send_flip_rules`: both of the
turtle's rules, wrapped in remote rules whose gateway is the turtle. -/
def flipRequest (turtle : String) (cancel : Bool) : RemoteRequest :=
  ⟨cancel, (turtleRules turtle).map (fun rule => ⟨turtle, rule⟩)⟩

/-- `TurtleHerder._send_flip_rules(turtles, cancel)`: for each turtle a
request with that turtle's two rules is sent to the gateway flip
service (one service call per turtle).  On `ServiceException` or
`ROSInterruptException` the method logs and returns immediately.  The
result is the list of requests issued to the flip service, in order. -/
def send_flip_rules (oracle : Nat → RpcOutcome) : Nat → List String → Bool → List RemoteRequest
  | _, [], _ => []
  | k, turtle :: rest, cancel =>
    match oracle k with
    | .success => flipRequest turtle cancel :: send_flip_rules oracle (k + 1) rest cancel
    | .serviceError => [flipRequest turtle cancel]
    | .interrupt => [flipRequest turtle cancel]

/-! ### `spawn_turtles` -/

/-- Which name lists `spawn_turtles` hands to each downstream step, and
the flip requests issued. -/
structure SpawnTrace where
  provisionRequested : List String
  launchRequested : List String
  flipRequested : List String
  flipCancel : Bool
  flipRequests : List RemoteRequest
deriving DecidableEq

/-- `TurtleHerder.spawn_turtles(turtles)`: uniquify the names against
`self.turtles`, extend `self.turtles` with the uniquified names, then
call `_spawn_simulated_turtles(turtles)` (note: the method is passed the
original argument, not the uniquified names), then
`_launch_turtle_clients(unique_turtle_names)` and
`_send_flip_rules(unique_turtle_names, cancel=False)`. -/
def spawn_turtles (spawnOracle flipOracle : Nat → RpcOutcome) (launcher : Nat → Nat × String)
    (s : HerderState) (turtles : List String) : HerderState × SpawnTrace :=
  let unique_turtle_names := establish_unique_names s.turtles turtles
  let extended := s.turtles ++ unique_turtle_names
  let afterSpawn := spawn_simulated_turtles spawnOracle 0 turtles extended
  let s2 : HerderState := { s with turtles := afterSpawn }
  let s3 := launch_turtle_clients launcher unique_turtle_names s2
  let requests := send_flip_rules flipOracle 0 unique_turtle_names false
  (s3, ⟨turtles, unique_turtle_names, unique_turtle_names, false, requests⟩)

/-! ### `shutdown` -/

/-- The external actions performed by one `shutdown()` call: the process
handles passed to `shutdown_roslaunch_windows`, the file names passed to
`os.unlink` (in order), and the requests issued to the kill service and
to the gateway flip service (both loops are commented out in the
source, so these are always empty). -/
structure ShutdownCall where
  stopRequests : List Nat
  unlinkAttempts : List String
  killRequests : List String
  flipRequests : List RemoteRequest
deriving DecidableEq

/-- The unlink loop of `shutdown`: every tracked temporary file is
passed to `os.unlink`; an `OSError` (signalled by the `unlinkFails`
oracle) is caught, logged, and the loop continues with the next file
exactly as in the success case. -/
def unlinkLoop (unlinkFails : Nat → Bool) : Nat → List String → List String
  | _, [] => []
  | k, f :: rest =>
    if unlinkFails k then f :: unlinkLoop unlinkFails (k + 1) rest
    else f :: unlinkLoop unlinkFails (k + 1) rest

/-- `TurtleHerder.shutdown()`: pass all of `self._processes` to
`self._terminal.shutdown_roslaunch_windows` and attempt to unlink every
file in `self._temporary_files`.  The kill-turtle loop and the unflip
request are commented out in the source; no field of the state is
mutated (in particular the tracked lists are not cleared). -/
def shutdown (unlinkFails : Nat → Bool) (s : HerderState) : HerderState × ShutdownCall :=
  (s, ⟨s.processes, unlinkLoop unlinkFails 0 s.temporary_files, [], []⟩)

/-! ### Concrete oracles used by the witnesses and counterexamples -/

/-- Oracle under which every RPC succeeds. -/
def allSuccess : Nat → RpcOutcome := fun _ => RpcOutcome.success

/-- Oracle whose first call raises `ROSInterruptException` and whose
later calls succeed. -/
def interruptFirst : Nat → RpcOutcome := fun k => if k = 0 then RpcOutcome.interrupt else RpcOutcome.success

/-- Oracle whose second call raises `ServiceException` and whose other
calls succeed. -/
def failSecond : Nat → RpcOutcome := fun k => if k = 1 then RpcOutcome.serviceError else RpcOutcome.success

/-- Launcher oracle handing out process handle `k` and meta roslauncher
file `"meta" ++ Nat.repr k` for the k-th launch. -/
def simpleLauncher : Nat → Nat × String := fun k => (k, "meta" ++ Nat.repr k)

/-- Unlink oracle under which no unlink raises. -/
def noUnlinkFailure : Nat → Bool := fun _ => false

/-- Initial state of a freshly constructed `TurtleHerder`. -/
def initialState : HerderState := ⟨[], [], []⟩

/-! ### Helper lemmas

`Nat.repr` (the `str(count)` of the source) is injective; consequently
the candidates tried by the uniquify loop are pairwise distinct, the
loop always finds a free candidate within `turtles.length + 1`
attempts, and the fuelled translation computes the behaviour of the
unbounded Python while loop. -/

lemma toDigitsCore_eq_digits (b : Nat) (hb : 2 ≤ b) :
    ∀ (fuel n : Nat) (ds : List Char), 0 < n → n < fuel →
      Nat.toDigitsCore b fuel n ds = ((Nat.digits b n).map Nat.digitChar).reverse ++ ds := by
  intro fuel
  induction fuel with
  | zero => intro n ds hn hlt; omega
  | succ fuel ih =>
    intro n ds hn hlt
    have hdig : Nat.digits b n = n % b :: Nat.digits b (n / b) :=
      Nat.digits_def' (by omega) hn
    by_cases hdiv : n / b = 0
    · simp [Nat.toDigitsCore, hdiv, hdig]
    · have h1 : 0 < n / b := Nat.pos_of_ne_zero hdiv
      have h2 : n / b < fuel := by
        have := Nat.div_lt_self hn (by omega : 1 < b)
        omega
      simp only [Nat.toDigitsCore, hdiv, if_false]
      rw [ih (n / b) (Nat.digitChar (n % b) :: ds) h1 h2, hdig]
      simp

lemma toDigits_eq_digits (b : Nat) (hb : 2 ≤ b) (n : Nat) (hn : 0 < n) :
    Nat.toDigits b n = ((Nat.digits b n).map Nat.digitChar).reverse := by
  rw [Nat.toDigits, toDigitsCore_eq_digits b hb (n + 1) n [] hn (by omega), List.append_nil]

lemma digitChar_inj_lt : ∀ d1 : Nat, d1 < 10 → ∀ d2 : Nat, d2 < 10 →
    Nat.digitChar d1 = Nat.digitChar d2 → d1 = d2 := by decide

lemma map_digitChar_inj : ∀ (l1 l2 : List Nat), (∀ d ∈ l1, d < 10) → (∀ d ∈ l2, d < 10) →
    l1.map Nat.digitChar = l2.map Nat.digitChar → l1 = l2
  | [], [], _, _, _ => rfl
  | [], _ :: _, _, _, h => by simp at h
  | _ :: _, [], _, _, h => by simp at h
  | d1 :: l1, d2 :: l2, h1, h2, h => by
    simp only [List.map_cons, List.cons.injEq] at h
    have hd := digitChar_inj_lt d1 (h1 d1 (by simp)) d2 (h2 d2 (by simp)) h.1
    have ht := map_digitChar_inj l1 l2 (fun d hd => h1 d (by simp [hd]))
      (fun d hd => h2 d (by simp [hd])) h.2
    simp [hd, ht]

lemma toDigits_ten_inj : ∀ m n : Nat, Nat.toDigits 10 m = Nat.toDigits 10 n → m = n := by
  have hzero : Nat.toDigits 10 0 = ['0'] := rfl
  have key : ∀ m n : Nat, 0 < m → 0 < n → Nat.toDigits 10 m = Nat.toDigits 10 n → m = n := by
    intro m n hm hn h
    rw [toDigits_eq_digits 10 (by omega) m hm, toDigits_eq_digits 10 (by omega) n hn] at h
    have h2 := List.reverse_injective h
    have h3 := map_digitChar_inj (Nat.digits 10 m) (Nat.digits 10 n)
      (fun d hd => Nat.digits_lt_base (by omega) hd)
      (fun d hd => Nat.digits_lt_base (by omega) hd) h2
    exact Nat.digits.injective 10 h3
  have zpos : ∀ n : Nat, 0 < n → Nat.toDigits 10 0 ≠ Nat.toDigits 10 n := by
    intro n hn h
    rw [hzero, toDigits_eq_digits 10 (by omega) n hn] at h
    have h2 : (Nat.digits 10 n).map Nat.digitChar = ['0'] := by
      have := congrArg List.reverse h
      simpa using this.symm
    have h3 : Nat.digits 10 n = [0] := by
      have h0 : ([0] : List Nat).map Nat.digitChar = ['0'] := rfl
      exact map_digitChar_inj (Nat.digits 10 n) [0]
        (fun d hd => Nat.digits_lt_base (by omega) hd) (by simp) (h2.trans h0.symm)
    have h4 := congrArg (Nat.ofDigits 10) h3
    rw [Nat.ofDigits_digits] at h4
    simp [Nat.ofDigits] at h4
    omega
  intro m n h
  rcases Nat.eq_zero_or_pos m with rfl | hm
  · rcases Nat.eq_zero_or_pos n with rfl | hn
    · rfl
    · exact absurd h (zpos n hn)
  · rcases Nat.eq_zero_or_pos n with rfl | hn
    · exact absurd h.symm (zpos m hm)
    · exact key m n hm hn h

lemma nat_repr_injective : Function.Injective Nat.repr := by
  intro m n h
  apply toDigits_ten_inj
  have := congrArg String.data h
  simpa [Nat.repr, List.asString] using this

lemma string_append_cancel_left {s t u : String} (h : s ++ t = s ++ u) : t = u := by
  apply String.ext
  have := congrArg String.data h
  simp only [String.data_append] at this
  exact List.append_cancel_left this

lemma candidateName_injective (name : String) : Function.Injective (candidateName name) := by
  intro i j h
  match i, j with
  | 0, 0 => rfl
  | 0, j + 1 =>
    exfalso
    have hlen := congrArg String.length h
    simp [candidateName, String.length_append] at hlen
    have : ("_" : String).length = 1 := rfl
    omega
  | i + 1, 0 =>
    exfalso
    have hlen := congrArg String.length h
    simp [candidateName, String.length_append] at hlen
    have : ("_" : String).length = 1 := rfl
    omega
  | i + 1, j + 1 =>
    have h2 : Nat.repr i = Nat.repr j := by
      apply @string_append_cancel_left (name ++ "_") (Nat.repr i) (Nat.repr j)
      simpa [candidateName, String.append_assoc] using h
    rw [nat_repr_injective h2]

lemma exists_free_candidate (turtles : List String) (name : String) :
    ∃ i, i ≤ turtles.length ∧ candidateName name i ∉ turtles := by
  by_contra hcon
  push_neg at hcon
  have hsub : ((List.range (turtles.length + 1)).map (candidateName name)).toFinset ⊆
      turtles.toFinset := by
    intro x hx
    simp only [List.mem_toFinset, List.mem_map, List.mem_range] at hx ⊢
    obtain ⟨i, hi, rfl⟩ := hx
    exact hcon i (by omega)
  have hnd : ((List.range (turtles.length + 1)).map (candidateName name)).Nodup :=
    (List.nodup_range _).map (candidateName_injective name)
  have h1 : ((List.range (turtles.length + 1)).map (candidateName name)).toFinset.card =
      turtles.length + 1 := by
    rw [List.toFinset_card_of_nodup hnd, List.length_map, List.length_range]
  have h2 := Finset.card_le_card hsub
  have h3 : turtles.toFinset.card ≤ turtles.length := List.toFinset_card_le turtles
  omega

lemma uniquifyLoop_finds_least (turtles : List String) (name : String) :
    ∀ (fuel i0 : Nat), (∃ m, m ≤ fuel ∧ candidateName name (i0 + m) ∉ turtles) →
      ∃ k, i0 ≤ k ∧ uniquifyLoop turtles name fuel i0 = candidateName name k ∧
        candidateName name k ∉ turtles ∧
        ∀ j, i0 ≤ j → j < k → candidateName name j ∈ turtles := by
  intro fuel
  induction fuel with
  | zero =>
    rintro i0 ⟨m, hm, hfree⟩
    obtain rfl : m = 0 := by omega
    refine ⟨i0, Nat.le_refl _, rfl, by simpa using hfree, ?_⟩
    intro j h1 h2
    omega
  | succ fuel ih =>
    rintro i0 ⟨m, hm, hfree⟩
    by_cases hmem : candidateName name i0 ∈ turtles
    · have hstep : uniquifyLoop turtles name (fuel + 1) i0 =
          uniquifyLoop turtles name fuel (i0 + 1) := by
        simp [uniquifyLoop, hmem]
      have hm0 : m ≠ 0 := by
        rintro rfl
        simp only [Nat.add_zero] at hfree
        exact hfree hmem
      obtain ⟨m', rfl⟩ : ∃ m', m = m' + 1 := ⟨m - 1, by omega⟩
      obtain ⟨k, hk1, hk2, hk3, hk4⟩ := ih (i0 + 1)
        ⟨m', by omega, by rw [show i0 + 1 + m' = i0 + (m' + 1) by omega]; exact hfree⟩
      refine ⟨k, by omega, by rw [hstep]; exact hk2, hk3, ?_⟩
      intro j hj1 hj2
      rcases Nat.eq_or_lt_of_le hj1 with rfl | hlt
      · exact hmem
      · exact hk4 j hlt hj2
    · refine ⟨i0, Nat.le_refl _, by simp [uniquifyLoop, hmem], hmem, ?_⟩
      intro j h1 h2
      omega

lemma prepareLoop_spec : ∀ (turtles : List String) (p : Nat),
    (prepareLoop turtles p).map LaunchConfiguration.name = turtles ∧
    (prepareLoop turtles p).map LaunchConfiguration.portCounter = List.range' p turtles.length ∧
    ∀ c ∈ prepareLoop turtles p, c.portAttr = "114" ++ Nat.repr c.portCounter := by
  intro turtles
  induction turtles with
  | nil => intro p; simp [prepareLoop]
  | cons t rest ih =>
    intro p
    obtain ⟨h1, h2, h3⟩ := ih (p + 1)
    refine ⟨by simp [prepareLoop, h1], by simp [prepareLoop, h2, List.range'_succ], ?_⟩
    intro c hc
    simp only [prepareLoop, List.mem_cons] at hc
    rcases hc with rfl | hc
    · rfl
    · exact h3 c hc

lemma send_flip_rules_all_success (oracle : Nat → RpcOutcome)
    (h : ∀ i, oracle i = RpcOutcome.success) :
    ∀ (turtles : List String) (k : Nat) (cancel : Bool),
      send_flip_rules oracle k turtles cancel = turtles.map (fun t => flipRequest t cancel) := by
  intro turtles
  induction turtles with
  | nil => intro k cancel; rfl
  | cons t rest ih =>
    intro k cancel
    simp only [send_flip_rules, h k, List.map_cons]
    rw [ih (k + 1)]

lemma sum_remotes_const (l : List String) (cancel : Bool) :
    ((l.map (fun t => flipRequest t cancel)).map (fun r => r.remotes.length)).sum =
      2 * l.length := by
  induction l with
  | nil => rfl
  | cons t rest ih =>
    simp only [List.map_cons, List.sum_cons, List.length_cons, ih]
    have : (flipRequest t cancel).remotes.length = 2 := rfl
    omega

lemma spawn_simulated_eq_successNames (oracle : Nat → RpcOutcome) :
    ∀ (names : List String) (k : Nat) (acc : List String),
      spawn_simulated_turtles oracle k names acc = acc ++ successNames oracle k names := by
  intro names
  induction names with
  | nil => intro k acc; simp [spawn_simulated_turtles, successNames]
  | cons n rest ih =>
    intro k acc
    cases hk : oracle k with
    | success => simp [spawn_simulated_turtles, successNames, hk, ih, List.append_assoc]
    | serviceError => simp [spawn_simulated_turtles, successNames, hk, ih]
    | interrupt => simp [spawn_simulated_turtles, successNames, hk, ih]

lemma unlinkLoop_eq (unlinkFails : Nat → Bool) :
    ∀ (k : Nat) (files : List String), unlinkLoop unlinkFails k files = files := by
  intro k files
  induction files generalizing k with
  | nil => rfl
  | cons f rest ih => simp [unlinkLoop, ih]

/-! ### Theorems -/

/-- Claim C1, counterexample: `_establish_unique_names` checks candidates
only against `self.turtles`, never against the names already produced in
the same call, so `uniquify(["a","a","a"], {})` returns `["a","a","a"]` —
not `["a","a_0","a_1"]` as the claim states — and the output collides
with itself. -/
theorem uniquify_intra_batch_counterexample :
    establish_unique_names [] ["a", "a", "a"] = ["a", "a", "a"] ∧
    establish_unique_names [] ["a", "a", "a"] ≠ ["a", "a_0", "a_1"] ∧
    ¬ (establish_unique_names [] ["a", "a", "a"]).Nodup := by
  decide

/-- Claim C2: the registry is not duplicate-free.  `spawn_turtles`
extends `self.turtles` with the uniquified names and then
`_spawn_simulated_turtles` appends the original name again on every
successful spawn RPC, so one call `spawn_turtles(["a"])` on a fresh
herder with a succeeding spawn service leaves `turtles = ["a", "a"]`. -/
theorem registry_duplicate_on_spawn :
    (spawn_turtles allSuccess allSuccess simpleLauncher initialState ["a"]).1.turtles = ["a", "a"] ∧
    ¬ (spawn_turtles allSuccess allSuccess simpleLauncher initialState ["a"]).1.turtles.Nodup := by
  decide

/-- Claim C3: `spawn_turtles` passes the original caller-supplied names
to `_spawn_simulated_turtles`, not the uniquified names; only the client
launch and the flip rules receive the uniquified names.  With registry
`["a"]`, spawning `["a"]` uniquifies to `["a_0"]`, yet the spawn service
is asked for `"a"`. -/
theorem spawn_provisions_original_names :
    (spawn_turtles allSuccess allSuccess simpleLauncher ⟨["a"], [], []⟩ ["a"]).2.provisionRequested = ["a"] ∧
    (spawn_turtles allSuccess allSuccess simpleLauncher ⟨["a"], [], []⟩ ["a"]).2.launchRequested = ["a_0"] ∧
    (spawn_turtles allSuccess allSuccess simpleLauncher ⟨["a"], [], []⟩ ["a"]).2.flipRequested = ["a_0"] ∧
    (spawn_turtles allSuccess allSuccess simpleLauncher ⟨["a"], [], []⟩ ["a"]).2.provisionRequested ≠
      (spawn_turtles allSuccess allSuccess simpleLauncher ⟨["a"], [], []⟩ ["a"]).2.launchRequested := by
  decide

/-- Claim C4, counterexample: the `port` counter of
`prepare_launch_configurations` is a local variable initialised to `11`
on every call, so two successive batches `["x"]` and `["y"]` both
receive counter `11` and port attribute `"11411"` — the port given to
`x` is reused for `y`. -/
theorem port_counter_resets_counterexample :
    (prepare_launch_configurations ["x"]).map LaunchConfiguration.portCounter = [11] ∧
    (prepare_launch_configurations ["y"]).map LaunchConfiguration.portCounter = [11] ∧
    (prepare_launch_configurations ["x"]).map LaunchConfiguration.portAttr = ["11411"] ∧
    (prepare_launch_configurations ["y"]).map LaunchConfiguration.portAttr = ["11411"] := by
  decide

/-- Claim C5, counterexample: `_send_flip_rules` issues one request per
turtle (each carrying that turtle's two rules), not a single batched
request: for `["t1","t2"]` with `cancel=false` the flip service is
called twice with two rule entries each, never once with four. -/
theorem flip_rules_per_turtle_counterexample :
    (send_flip_rules allSuccess 0 ["t1", "t2"] false).length = 2 ∧
    (send_flip_rules allSuccess 0 ["t1", "t2"] false).length ≠ 1 ∧
    ∀ r ∈ send_flip_rules allSuccess 0 ["t1", "t2"] false, r.remotes.length = 2 := by
  decide

/-- Claim C6, counterexample: an interrupt
(`rospy.ROSInterruptException`) during a provisioning call does not
abort the batch — the handler does `continue` — so with an interrupt on
the first name of `["a", "b"]`, the turtle `"b"` is still provisioned
afterwards. -/
theorem interrupt_continue_counterexample :
    interruptFirst 0 = RpcOutcome.interrupt ∧
    spawn_simulated_turtles interruptFirst 0 ["a", "b"] [] = ["b"] ∧
    "b" ∈ spawn_simulated_turtles interruptFirst 0 ["a", "b"] [] := by
  decide

/-- Claim C8, counterexample: `shutdown` clears neither `_processes` nor
`_temporary_files`, so a second `shutdown` passes the same process
handle to `shutdown_roslaunch_windows` again and the same file to
`os.unlink` again: across the two calls handle `7` receives two stop
requests and file `"f"` two unlink attempts. -/
theorem shutdown_twice_counterexample :
    ((shutdown noUnlinkFailure ⟨["a"], [7], ["f"]⟩).2.stopRequests ++
      (shutdown noUnlinkFailure (shutdown noUnlinkFailure ⟨["a"], [7], ["f"]⟩).1).2.stopRequests).count 7 = 2 ∧
    ((shutdown noUnlinkFailure ⟨["a"], [7], ["f"]⟩).2.unlinkAttempts ++
      (shutdown noUnlinkFailure (shutdown noUnlinkFailure ⟨["a"], [7], ["f"]⟩).1).2.unlinkAttempts).count "f" = 2 := by
  decide

/-- Claim C1, amended: `_establish_unique_names` returns a list of the
same length and order as its input, and each output name is the first
candidate `name, name_0, name_1, ...` (i.e. `'_N'` with the smallest
`N` starting from 0 after the bare name) that does not occur in
`self.turtles`.  Collisions are avoided only against `self.turtles`,
not within the output itself. -/
theorem uniquify_amended_spec (selfTurtles names : List String) :
    (establish_unique_names selfTurtles names).length = names.length ∧
    ∀ i, i < names.length →
      ∃ k, (establish_unique_names selfTurtles names).getD i "" =
          candidateName (names.getD i "") k ∧
        candidateName (names.getD i "") k ∉ selfTurtles ∧
        ∀ j, j < k → candidateName (names.getD i "") j ∈ selfTurtles := by
  refine ⟨by simp [establish_unique_names], ?_⟩
  intro i hi
  have hmap : (establish_unique_names selfTurtles names).getD i "" =
      uniquifyLoop selfTurtles (names.getD i "") (selfTurtles.length + 1) 0 := by
    rw [establish_unique_names, List.getD_eq_getElem?_getD, List.getElem?_map,
      List.getElem?_eq_getElem hi, List.getD_eq_getElem?_getD, List.getElem?_eq_getElem hi]
    rfl
  obtain ⟨m, hm, hfree⟩ := exists_free_candidate selfTurtles (names.getD i "")
  obtain ⟨k, _, h2, h3, h4⟩ := uniquifyLoop_finds_least selfTurtles (names.getD i "")
    (selfTurtles.length + 1) 0 ⟨m, by omega, by simpa using hfree⟩
  exact ⟨k, by rw [hmap, h2], h3, fun j hj => h4 j (Nat.zero_le _) hj⟩

/-- Claim C1, witness: the amended theorem applied to the registry
`["a", "a_0"]` and the request `["a"]`. -/
theorem uniquify_amended_spec_witness :
    0 < (["a"] : List String).length ∧
    ∃ k, (establish_unique_names ["a", "a_0"] ["a"]).getD 0 "" =
        candidateName ((["a"] : List String).getD 0 "") k ∧
      candidateName ((["a"] : List String).getD 0 "") k ∉ (["a", "a_0"] : List String) ∧
      ∀ j, j < k → candidateName ((["a"] : List String).getD 0 "") j ∈ (["a", "a_0"] : List String) :=
  ⟨by decide, (uniquify_amended_spec ["a", "a_0"] ["a"]).2 0 (by decide)⟩

/-- Claim C4, amended: within a single call,
`prepare_launch_configurations` assigns ports deterministically in
processing order, strictly increasing from the fixed base (counter 11,
attribute `"11411"`), one per turtle; but the counter is a local
variable, so every call restarts at the base — the port sequence is
`List.range' 11 turtles.length` for every batch, independent of any
earlier batch. -/
theorem port_assignment_amended_spec (turtles : List String) :
    (prepare_launch_configurations turtles).map LaunchConfiguration.name = turtles ∧
    (prepare_launch_configurations turtles).map LaunchConfiguration.portCounter =
      List.range' 11 turtles.length ∧
    ((prepare_launch_configurations turtles).map LaunchConfiguration.portCounter).Pairwise (· < ·) ∧
    ∀ c ∈ prepare_launch_configurations turtles, c.portAttr = "114" ++ Nat.repr c.portCounter := by
  obtain ⟨h1, h2, h3⟩ := prepareLoop_spec turtles 11
  refine ⟨h1, h2, ?_, h3⟩
  simp only [prepare_launch_configurations]
  rw [h2]
  exact List.pairwise_lt_range' 11 turtles.length

/-- Claim C5, amended: `_send_flip_rules` builds exactly two rules per
turtle — the inbound `cmd_vel` subscriber rule and the outbound `pose`
publisher rule — but sends one request per turtle (each carrying the
cancel flag and that turtle's two rule entries), so `["t1","t2"]` with
`cancel=false` yields two requests of two entries each, four entries in
total. -/
theorem flip_rules_amended_spec (oracle : Nat → RpcOutcome) (k : Nat) (turtles : List String)
    (cancel : Bool) (h : ∀ i, oracle i = RpcOutcome.success) :
    send_flip_rules oracle k turtles cancel = turtles.map (fun t => flipRequest t cancel) ∧
    (∀ r ∈ send_flip_rules oracle k turtles cancel, r.cancel = cancel ∧ r.remotes.length = 2) ∧
    ((send_flip_rules oracle k turtles cancel).map (fun r => r.remotes.length)).sum =
      2 * turtles.length := by
  have heq := send_flip_rules_all_success oracle h turtles k cancel
  refine ⟨heq, ?_, by rw [heq]; exact sum_remotes_const turtles cancel⟩
  rw [heq]
  intro r hr
  simp only [List.mem_map] at hr
  obtain ⟨t, _, rfl⟩ := hr
  exact ⟨rfl, rfl⟩

/-- Claim C5, witness: the amended theorem at `["t1", "t2"]`,
`cancel = false`, with every RPC succeeding. -/
theorem flip_rules_amended_spec_witness :
    send_flip_rules allSuccess 0 ["t1", "t2"] false =
      (["t1", "t2"] : List String).map (fun t => flipRequest t false) ∧
    (∀ r ∈ send_flip_rules allSuccess 0 ["t1", "t2"] false,
      r.cancel = false ∧ r.remotes.length = 2) ∧
    ((send_flip_rules allSuccess 0 ["t1", "t2"] false).map (fun r => r.remotes.length)).sum =
      2 * (["t1", "t2"] : List String).length :=
  flip_rules_amended_spec allSuccess 0 ["t1", "t2"] false (fun _ => rfl)

/-- Claim C6, amended: an interrupt during a provisioning call is
handled exactly like a communication failure — the name is skipped (not
recorded) and provisioning continues with the remaining names of the
batch — while names provisioned before the interrupt remain recorded. -/
theorem interrupt_skip_amended_spec (oracle : Nat → RpcOutcome) (k : Nat) (name : String)
    (rest acc : List String) (h : oracle k = RpcOutcome.interrupt) :
    spawn_simulated_turtles oracle k (name :: rest) acc =
      acc ++ successNames oracle (k + 1) rest := by
  rw [spawn_simulated_eq_successNames oracle (name :: rest) k acc]
  simp [successNames, h]

/-- Claim C6, witness: the amended theorem at the oracle whose first
call is interrupted. -/
theorem interrupt_skip_amended_spec_witness :
    interruptFirst 0 = RpcOutcome.interrupt ∧
    spawn_simulated_turtles interruptFirst 0 ["a", "b"] [] =
      [] ++ successNames interruptFirst (0 + 1) ["b"] :=
  ⟨rfl, interrupt_skip_amended_spec interruptFirst 0 "a" ["b"] [] rfl⟩

/-- Claim C7: `_spawn_simulated_turtles` records exactly the names whose
spawn RPC succeeds, appended in order to the prior registry: a name
whose RPC raises is skipped (not recorded, not retried) and the loop
continues, so a partial failure never aborts the remaining entities of
the batch. -/
theorem provision_partial_failure_spec (oracle : Nat → RpcOutcome) (k : Nat)
    (names acc : List String) :
    spawn_simulated_turtles oracle k names acc = acc ++ successNames oracle k names :=
  spawn_simulated_eq_successNames oracle names k acc

/-- Claim C8, amended: a second `shutdown` raises no error (unlink
failures are caught), but it is not once-only: the tracked lists are
not cleared, so the second call issues exactly the same stop requests
and unlink attempts again — every handle and artifact is acted on once
per call, i.e. twice across the two calls — and the state is still
unchanged. -/
theorem shutdown_twice_amended_spec (fails1 fails2 : Nat → Bool) (s : HerderState) :
    (shutdown fails2 (shutdown fails1 s).1).1 = s ∧
    (shutdown fails2 (shutdown fails1 s).1).2 = (shutdown fails1 s).2 ∧
    (shutdown fails1 s).2.stopRequests = s.processes ∧
    (shutdown fails1 s).2.unlinkAttempts = s.temporary_files := by
  refine ⟨rfl, ?_, rfl, unlinkLoop_eq fails1 0 s.temporary_files⟩
  show (⟨s.processes, unlinkLoop fails2 0 s.temporary_files, [], []⟩ : ShutdownCall) =
    ⟨s.processes, unlinkLoop fails1 0 s.temporary_files, [], []⟩
  rw [unlinkLoop_eq fails2 0 s.temporary_files, unlinkLoop_eq fails1 0 s.temporary_files]

/-- Claim C9: `shutdown()` requests a stop for every tracked process and
attempts to unlink every tracked temporary file (an unlink failure is
caught and does not abort the remaining unlinks), issues no kill-turtle
call and no flip-rule cancellation, and leaves the whole state — in
particular the `turtles` registry — unchanged. -/
theorem shutdown_frame_spec (unlinkFails : Nat → Bool) (s : HerderState) :
    (shutdown unlinkFails s).2.stopRequests = s.processes ∧
    (shutdown unlinkFails s).2.unlinkAttempts = s.temporary_files ∧
    (shutdown unlinkFails s).2.killRequests = [] ∧
    (shutdown unlinkFails s).2.flipRequests = [] ∧
    (shutdown unlinkFails s).1.turtles = s.turtles ∧
    (shutdown unlinkFails s).1 = s :=
  ⟨rfl, unlinkLoop_eq unlinkFails 0 s.temporary_files, rfl, rfl, rfl, rfl⟩

/-- Claim C10: if the flip RPC raises (communication failure or
interrupt) at the j-th turtle of the batch, `_send_flip_rules` returns
immediately: the requests issued are exactly the per-turtle requests
for the first j+1 turtles (the failing call included), all carrying the
given cancel flag — nothing is sent for the later turtles and no
cancellation of the earlier requests is issued. -/
theorem flip_abort_on_failure_spec (oracle : Nat → RpcOutcome) (cancel : Bool) :
    ∀ (turtles : List String) (k j : Nat), j < turtles.length →
      (∀ i, i < j → oracle (k + i) = RpcOutcome.success) →
      oracle (k + j) ≠ RpcOutcome.success →
      send_flip_rules oracle k turtles cancel =
        (turtles.take (j + 1)).map (fun t => flipRequest t cancel) := by
  intro turtles
  induction turtles with
  | nil => intro k j hj; simp at hj
  | cons t rest ih =>
    intro k j hj hbefore hfail
    cases j with
    | zero =>
      have hk : oracle k ≠ RpcOutcome.success := by simpa using hfail
      cases hkk : oracle k with
      | success => exact absurd hkk hk
      | serviceError => simp [send_flip_rules, hkk]
      | interrupt => simp [send_flip_rules, hkk]
    | succ j' =>
      have hk : oracle k = RpcOutcome.success := by simpa using hbefore 0 (by omega)
      simp only [send_flip_rules, hk, List.take_succ_cons, List.map_cons]
      rw [ih (k + 1) j' (by simpa using hj)
        (fun i hi => by rw [show k + 1 + i = k + (i + 1) by omega]; exact hbefore (i + 1) (by omega))
        (by rw [show k + 1 + j' = k + (j' + 1) by omega]; exact hfail)]

/-- Claim C10, witness: the theorem at the oracle whose second call
fails, with three turtles — the first two requests are issued, the
third is not. -/
theorem flip_abort_on_failure_spec_witness :
    send_flip_rules failSecond 0 ["t1", "t2", "t3"] false =
      ((["t1", "t2", "t3"] : List String).take (1 + 1)).map (fun t => flipRequest t false) :=
  flip_abort_on_failure_spec failSecond false ["t1", "t2", "t3"] 0 1 (by decide)
    (by decide) (by decide)

end TurtleHerder
